import Mathlib

/-!
Shallow embedding of the recipe-book persistence layer (`src/database.rs`,
with the manual shopping-list entry path of `src/cli.rs`).

The store keeps two tables, created by `RecipeDatabase::new`:
  recipes(id INTEGER PRIMARY KEY, title TEXT NOT NULL, link TEXT NOT NULL,
          category TEXT, steps TEXT)
  ingredients(id INTEGER PRIMARY KEY, name TEXT NOT NULL, recipe_id INTEGER,
              have INTEGER DEFAULT 0,
              FOREIGN KEY(recipe_id) REFERENCES recipes(id) ON DELETE CASCADE)
Tables are embedded as lists of rows in insertion (rowid) order; the SQL
semantics follows the declared schema: the foreign key is enforced on insert
and deleting a recipe cascades to its ingredient rows.  A SQLite rowid for a
fresh row is one more than the largest rowid present (1 for an empty table).
-/

namespace RecipeBook

/-- Row of the `recipes` table. -/
structure RecipeRow where
  id : Int
  title : String
  link : String
  category : Option String
  steps : Option String
deriving Repr, DecidableEq

/-- Row of the `ingredients` table.  The column `have` is a Lean keyword, so
the field is called `haveFlag`; `recipe_id` is nullable in the schema. -/
structure IngredientRow where
  id : Int
  name : String
  recipe_id : Option Int
  haveFlag : Bool
deriving Repr, DecidableEq

/-- The `Recipe` struct of `database.rs` (`id` is `Option<i64>`). -/
structure Recipe where
  id : Option Int
  title : String
  link : String
  category : Option String
  steps : Option String
deriving Repr, DecidableEq

/-- Contents of the store: the two tables, in rowid order. -/
structure DbState where
  recipes : List RecipeRow
  ingredients : List IngredientRow
deriving Repr, DecidableEq

/-- Error kinds of the store's operations. -/
inductive DbError where
  | validationError
  | notFoundError
  | persistenceError
deriving Repr, DecidableEq

/-- The state after `RecipeDatabase::new` on a fresh database: both tables
exist and are empty. -/
def initState : DbState := ⟨[], []⟩

/-- SQLite rowid assignment: one more than the largest id present, 1 when the
table is empty (all ids assigned by the store are positive). -/
def nextId (ids : List Int) : Int := ids.foldr max 0 + 1

/-- Embeds `add_recipe`: `INSERT INTO recipes (title, link, category, steps)
VALUES (?1, ?2, ?3, ?4)` followed by `last_insert_rowid`.  The input's `id`
field is not part of the INSERT.  No validation is performed; the NOT NULL
constraints cannot fire because Rust strings are never null. -/
def add_recipe (s : DbState) (r : Recipe) : Int × DbState :=
  let rid := nextId (s.recipes.map RecipeRow.id)
  (rid, { s with recipes := s.recipes ++ [⟨rid, r.title, r.link, r.category, r.steps⟩] })

/-- Embeds `delete_recipe`: `DELETE FROM recipes WHERE id = ?1`.  Under the
schema's `ON DELETE CASCADE`, ingredient rows whose `recipe_id` equals the
deleted id are removed as well.  The code returns `Ok(())` without inspecting
the number of affected rows. -/
def delete_recipe (s : DbState) (rid : Int) : Except DbError DbState :=
  .ok { recipes := s.recipes.filter (fun r => decide (r.id ≠ rid)),
        ingredients := s.ingredients.filter (fun i => decide (i.recipe_id ≠ some rid)) }

/-- The row-to-struct mapper of `get_recipes` (`recipe_mapper`). -/
def toRecipe (r : RecipeRow) : Recipe :=
  ⟨some r.id, r.title, r.link, r.category, r.steps⟩

/-- Embeds `get_recipes`: with a filter, `SELECT ... FROM recipes WHERE
category = ?1` (SQL equality: a NULL category matches no filter string);
without, `SELECT ... FROM recipes`. -/
def get_recipes (s : DbState) (category : Option String) : List Recipe :=
  match category with
  | some c => (s.recipes.filter (fun r => decide (r.category = some c))).map toRecipe
  | none => s.recipes.map toRecipe

/-- Embeds `get_recipe_ingredients`: `SELECT name FROM ingredients WHERE
recipe_id = ?1` (a NULL `recipe_id` matches no id). -/
def get_recipe_ingredients (s : DbState) (rid : Int) : List String :=
  (s.ingredients.filter (fun i => decide (i.recipe_id = some rid))).map IngredientRow.name

/-- One iteration of the `add_ingredients` loop: `INSERT INTO ingredients
(name, recipe_id) VALUES (?1, ?2)`; `have` takes its DEFAULT 0. -/
def insert_ingredient (s : DbState) (n : String) (rid : Option Int) : DbState :=
  { s with ingredients :=
      s.ingredients ++ [⟨nextId (s.ingredients.map IngredientRow.id), n, rid, false⟩] }

/-- Embeds `add_ingredients`: inserts one row per name, in order, with the
given (non-null) `recipe_id`.  The declared foreign key makes an INSERT fail
with a constraint error when no recipe with that id exists; the loop stops at
the first failure (`?`). -/
def add_ingredients (s : DbState) (rid : Int) : List String → Except DbError DbState
  | [] => .ok s
  | n :: rest =>
      if rid ∈ s.recipes.map RecipeRow.id then
        add_ingredients (insert_ingredient s n (some rid)) rid rest
      else
        .error .persistenceError

/-- Embeds `get_shopping_list`: `SELECT name FROM ingredients WHERE have = 0`. -/
def get_shopping_list (s : DbState) : List String :=
  (s.ingredients.filter (fun i => decide (i.haveFlag = false))).map IngredientRow.name

/-- Embeds `mark_ingredient`: `UPDATE ingredients SET have = ?1 WHERE
name = ?2`, matching zero or many rows. -/
def mark_ingredient (s : DbState) (n : String) (hv : Bool) : DbState :=
  { s with ingredients :=
      s.ingredients.map (fun i => if i.name = n then { i with haveFlag := hv } else i) }

/-- Embeds `mark_multiple_ingredients`: `UPDATE ingredients SET have = b WHERE
name IN (...)` (an empty IN list matches nothing in SQLite). -/
def mark_multiple_ingredients (s : DbState) (names : List String) (hv : Bool) : DbState :=
  { s with ingredients :=
      s.ingredients.map (fun i => if i.name ∈ names then { i with haveFlag := hv } else i) }

/-- Fault oracle for the four fallible steps of `mark_and_remove_ingredients`:
opening the transaction, the UPDATE statement, the DELETE statement, and the
commit.  A `true` field means the underlying step fails there. -/
structure Faults where
  beginTx : Bool
  updateStmt : Bool
  deleteStmt : Bool
  commitStmt : Bool
deriving Repr, DecidableEq

/-- The fault-free execution. -/
def noFaults : Faults := ⟨false, false, false, false⟩

/-- Embeds `mark_and_remove_ingredients`: inside one transaction, `UPDATE
ingredients SET have = 1 WHERE name IN (...)` then `DELETE FROM ingredients
WHERE name IN (...)`, then commit.  A failing step makes the transaction guard
drop without commit, rolling every prior step back, so the caller's state is
the pre-call state; the error is a persistence failure. -/
def mark_and_remove_ingredients (f : Faults) (s : DbState) (names : List String) :
    Except DbError Unit × DbState :=
  if f.beginTx then (.error .persistenceError, s)
  else if f.updateStmt then (.error .persistenceError, s)
  else
    let txAfterUpdate := s.ingredients.map
      (fun i => if i.name ∈ names then { i with haveFlag := true } else i)
    if f.deleteStmt then (.error .persistenceError, s)
    else
      let txAfterDelete := txAfterUpdate.filter (fun i => decide (i.name ∉ names))
      if f.commitStmt then (.error .persistenceError, s)
      else (.ok (), { s with ingredients := txAfterDelete })

/-- Embeds the confirmed branch of `add_manual_ingredients` in `cli.rs`: for
each entered name it calls `add_ingredients` with a dummy recipe id of 0
(comment in the source: "with a dummy recipe_id of 0 for manual entries"),
stopping at the first error (`?`). -/
def add_manual_ingredients (s : DbState) : List String → Except DbError DbState
  | [] => .ok s
  | n :: rest =>
      match add_ingredients s 0 [n] with
      | .error e => .error e
      | .ok s' => add_manual_ingredients s' rest

/-- Result values of the store's operations, for the uniform step function. -/
inductive DbOut where
  | newId (n : Int)
  | done
  | failed (e : DbError)
  | recipeList (l : List Recipe)
  | nameList (l : List String)
deriving Repr, DecidableEq

/-- The store's operations, as invoked by the interaction shell. -/
inductive DbOp where
  | addRecipeOp (r : Recipe)
  | deleteRecipeOp (rid : Int)
  | addIngredientsOp (rid : Int) (names : List String)
  | markIngredientOp (n : String) (hv : Bool)
  | markMultipleOp (names : List String) (hv : Bool)
  | markAndRemoveOp (f : Faults) (names : List String)
  | getRecipesOp (category : Option String)
  | getRecipeIngredientsOp (rid : Int)
  | getShoppingListOp

/-- Uniform small-step function: runs one store operation, returning its
result and the state it leaves behind (the pre-call state whenever the
operation fails). -/
def runOp (s : DbState) : DbOp → DbOut × DbState
  | .addRecipeOp r =>
      let p := add_recipe s r
      (.newId p.1, p.2)
  | .deleteRecipeOp rid =>
      match delete_recipe s rid with
      | .ok s' => (.done, s')
      | .error e => (.failed e, s)
  | .addIngredientsOp rid names =>
      match add_ingredients s rid names with
      | .ok s' => (.done, s')
      | .error e => (.failed e, s)
  | .markIngredientOp n hv => (.done, mark_ingredient s n hv)
  | .markMultipleOp names hv => (.done, mark_multiple_ingredients s names hv)
  | .markAndRemoveOp f names =>
      let p := mark_and_remove_ingredients f s names
      (match p.1 with
       | .ok _ => .done
       | .error e => .failed e, p.2)
  | .getRecipesOp category => (.recipeList (get_recipes s category), s)
  | .getRecipeIngredientsOp rid => (.nameList (get_recipe_ingredients s rid), s)
  | .getShoppingListOp => (.nameList (get_shopping_list s), s)

/-- States reachable from a fresh store by running operations. -/
inductive Reachable : DbState → Prop where
  | init : Reachable initState
  | step (s : DbState) (op : DbOp) : Reachable s → Reachable (runOp s op).2

/-- Referential integrity: no ingredient row carries a null `recipe_id` (the
store's API only ever inserts concrete ids), and every carried id references a
recipe row present in the store. -/
def refIntegrity (s : DbState) : Prop :=
  (∀ i ∈ s.ingredients, i.recipe_id ≠ none) ∧
  (∀ i ∈ s.ingredients, ∀ rid : Int, i.recipe_id = some rid → ∃ r ∈ s.recipes, r.id = rid)

/-- A small populated store used to instantiate the general theorems: one
saved recipe (id 1) owning two unbought ingredients. -/
def demoState : DbState :=
  { recipes := [⟨1, "Lentil Soup", "http://x/1", some "soup", none⟩],
    ingredients := [⟨1, "lentils", some 1, false⟩, ⟨2, "onion", some 1, false⟩] }

/-- The demo store after a committed mark-and-remove of `lentils`. -/
def demoAfter : DbState :=
  { recipes := [⟨1, "Lentil Soup", "http://x/1", some "soup", none⟩],
    ingredients := [⟨2, "onion", some 1, false⟩] }

/-! Helper lemmas -/

/-- Every member of a list of integers is bounded by the list's running
maximum (with seed 0), so a fresh rowid exceeds every id in the table. -/
lemma mem_le_foldr_max (l : List Int) (x : Int) (hx : x ∈ l) : x ≤ l.foldr max 0 := by
  induction l with
  | nil => cases hx
  | cons a t ih =>
    rcases List.mem_cons.mp hx with h | h
    · simp [h, le_max_left a (t.foldr max 0)]
    · exact le_trans (ih h) (le_max_right a (t.foldr max 0))

/-! Claim theorems -/

/-- C4 counterexample: with no recipe stored, `delete_recipe 5` matches zero
rows yet returns success, contradicting the claim that it fails with a
`NotFoundError`. -/
theorem delete_recipe_missing_id_returns_ok :
    delete_recipe initState 5 = .ok initState := by rfl

/-- C4 amended: `delete_recipe` succeeds for every id, existing or not; it
removes exactly the recipe rows whose id matches and never reports a missing
row. -/
theorem delete_recipe_always_succeeds (s : DbState) (rid : Int) :
    ∃ s', delete_recipe s rid = .ok s' ∧
      ∀ r : RecipeRow, r ∈ s'.recipes ↔ r ∈ s.recipes ∧ r.id ≠ rid := by
  refine ⟨_, rfl, ?_⟩
  intro r
  simp [List.mem_filter]

/-- C5: on every store state, `add_ingredients` with an empty name list and a
fault-free `mark_and_remove_ingredients` with an empty name list both succeed
and leave the state exactly unchanged. -/
theorem empty_input_is_noop (s : DbState) (rid : Int) :
    add_ingredients s rid [] = .ok s ∧
      mark_and_remove_ingredients noFaults s [] = (.ok (), s) := by
  refine ⟨rfl, ?_⟩
  simp [mark_and_remove_ingredients, noFaults]

/-- C9 counterexample: inserting a recipe whose title is the empty string is
not rejected: the row is stored and the fresh id 1 is returned, contradicting
the claim that an empty title fails with a `ValidationError` before touching
storage. -/
theorem add_recipe_empty_title_inserts_row :
    add_recipe initState ⟨none, "", "", none, none⟩ =
      (1, ⟨[⟨1, "", "", none, none⟩], []⟩) := by rfl

/-- C9 amended: `add_recipe` performs no validation at all: for every input,
with empty or non-empty title, it appends exactly one row carrying the input's
fields and returns the newly assigned identifier, which is fresh (strictly
larger than every stored recipe id). -/
theorem add_recipe_inserts_unconditionally (s : DbState) (r : Recipe) :
    ∃ rid, add_recipe s r =
        (rid, ⟨s.recipes ++ [⟨rid, r.title, r.link, r.category, r.steps⟩], s.ingredients⟩) ∧
      ∀ row ∈ s.recipes, row.id < rid := by
  refine ⟨nextId (s.recipes.map RecipeRow.id), rfl, ?_⟩
  intro row hrow
  have hle : row.id ≤ (s.recipes.map RecipeRow.id).foldr max 0 :=
    mem_le_foldr_max _ _ (List.mem_map_of_mem RecipeRow.id hrow)
  exact lt_of_le_of_lt hle (by simp [nextId])

/-- C10: the three read operations return the corresponding SELECT results and
leave the store state exactly as it was. -/
theorem read_ops_leave_state_unchanged (s : DbState) (category : Option String) (rid : Int) :
    runOp s (.getRecipesOp category) = (.recipeList (get_recipes s category), s) ∧
      runOp s (.getRecipeIngredientsOp rid) = (.nameList (get_recipe_ingredients s rid), s) ∧
      runOp s .getShoppingListOp = (.nameList (get_shopping_list s), s) :=
  ⟨rfl, rfl, rfl⟩

/-- C6: the shopping list is the derived view of the ingredient table — a name
is on it exactly when some stored row carries that name with `have = false` —
and after `mark_ingredient n true` the name `n` is gone from it (every row
named `n` now has `have = true`). -/
theorem shopping_list_derived (s : DbState) (n : String) :
    (n ∈ get_shopping_list s ↔ ∃ i ∈ s.ingredients, i.name = n ∧ i.haveFlag = false) ∧
      n ∉ get_shopping_list (mark_ingredient s n true) := by
  constructor
  · simp only [get_shopping_list, List.mem_map, List.mem_filter, decide_eq_true_eq]
    constructor
    · rintro ⟨i, ⟨hi, hflag⟩, hname⟩
      exact ⟨i, hi, hname, hflag⟩
    · rintro ⟨i, hi, hname, hflag⟩
      exact ⟨i, ⟨hi, hflag⟩, hname⟩
  · intro hmem
    simp only [get_shopping_list, mark_ingredient, List.mem_map, List.mem_filter,
      List.mem_map, decide_eq_true_eq] at hmem
    obtain ⟨row, ⟨hrow, hflag⟩, hname⟩ := hmem
    obtain ⟨j, hj, hje⟩ := hrow
    by_cases hn : j.name = n
    · rw [if_pos hn] at hje
      rw [← hje] at hflag
      simp at hflag
    · rw [if_neg hn] at hje
      rw [← hje] at hname
      exact hn hname

/-- C7: without a filter, `get_recipes` returns every stored recipe; with a
filter string `c`, it returns exactly the recipes whose category column equals
`some c` under plain string equality — a NULL category or a string differing in
any character (including case) is never matched. -/
theorem get_recipes_exact_filter (s : DbState) (c : String) :
    get_recipes s none = s.recipes.map toRecipe ∧
      ∀ rec, rec ∈ get_recipes s (some c) ↔
        ∃ row ∈ s.recipes, row.category = some c ∧ rec = toRecipe row := by
  refine ⟨rfl, ?_⟩
  intro rec
  simp only [get_recipes, List.mem_map, List.mem_filter, decide_eq_true_eq]
  constructor
  · rintro ⟨row, ⟨hrow, hcat⟩, hrec⟩
    exact ⟨row, hrow, hcat, hrec.symm⟩
  · rintro ⟨row, hrow, hcat, hrec⟩
    exact ⟨row, ⟨hrow, hcat⟩, hrec.symm⟩

/-- C1: whenever any underlying step of `mark_and_remove_ingredients` fails
(transaction begin, UPDATE, DELETE, or commit), the operation reports a
persistence error and the store state — every recipe row and every ingredient
row, each `have` flag included — is exactly the pre-call state. -/
theorem mark_and_remove_rolls_back_on_failure (f : Faults) (s : DbState)
    (names : List String) (_hne : names ≠ [])
    (hf : f.beginTx = true ∨ f.updateStmt = true ∨ f.deleteStmt = true ∨ f.commitStmt = true) :
    mark_and_remove_ingredients f s names = (.error .persistenceError, s) := by
  by_cases h1 : f.beginTx <;> by_cases h2 : f.updateStmt <;>
    by_cases h3 : f.deleteStmt <;> by_cases h4 : f.commitStmt <;>
    simp [mark_and_remove_ingredients, h1, h2, h3, h4] at hf ⊢

/-- C1 witness: a failing UPDATE step on the demo store with names
`[lentils]` reports a persistence error and leaves the store untouched. -/
theorem mark_and_remove_rolls_back_on_failure_witness :
    (["lentils"] ≠ ([] : List String)) ∧
      mark_and_remove_ingredients ⟨false, true, false, false⟩ demoState ["lentils"] =
        (.error .persistenceError, demoState) :=
  ⟨by decide,
   mark_and_remove_rolls_back_on_failure ⟨false, true, false, false⟩ demoState
     ["lentils"] (by decide) (Or.inr (Or.inl rfl))⟩

/-- C3: a committed `mark_and_remove_ingredients` leaves the recipe table
unchanged, deletes every ingredient row whose name is in the given set (after
the UPDATE step marked them `have = true` inside the transaction), and the
subsequent shopping list contains none of the given names. -/
theorem mark_and_remove_success_removes_named (f : Faults) (s : DbState)
    (names : List String) (s' : DbState) (_hne : names ≠ [])
    (hok : mark_and_remove_ingredients f s names = (.ok (), s')) :
    s'.recipes = s.recipes ∧ (∀ i ∈ s'.ingredients, i.name ∉ names) ∧
      ∀ n ∈ names, n ∉ get_shopping_list s' := by
  by_cases h1 : f.beginTx
  · simp [mark_and_remove_ingredients, h1] at hok
  by_cases h2 : f.updateStmt
  · simp [mark_and_remove_ingredients, h1, h2] at hok
  by_cases h3 : f.deleteStmt
  · simp [mark_and_remove_ingredients, h1, h2, h3] at hok
  by_cases h4 : f.commitStmt
  · simp [mark_and_remove_ingredients, h1, h2, h3, h4] at hok
  simp only [mark_and_remove_ingredients, h1, h2, h3, h4, if_false, Bool.false_eq_true,
    Prod.mk.injEq] at hok
  obtain ⟨-, rfl⟩ := hok
  refine ⟨rfl, ?_, ?_⟩
  · intro i hi
    have := (List.mem_filter.mp hi).2
    simpa using this
  · intro n hn hmem
    simp only [get_shopping_list, List.mem_map, List.mem_filter] at hmem
    obtain ⟨row, ⟨hrow, -⟩, hname⟩ := hmem
    have := hrow.2
    rw [hname] at this
    simp [hn] at this

/-- C3 witness: committing `mark_and_remove_ingredients` for `lentils` on the
demo store yields a store whose ingredient table and shopping list are free of
`lentils`. -/
theorem mark_and_remove_success_removes_named_witness :
    demoAfter.recipes = demoState.recipes ∧
      (∀ i ∈ demoAfter.ingredients, i.name ∉ ["lentils"]) ∧
      ∀ n ∈ ["lentils"], n ∉ get_shopping_list demoAfter :=
  mark_and_remove_success_removes_named noFaults demoState ["lentils"] demoAfter
    (by decide) (by rfl)

/-- C2: deleting a stored recipe that owns at least one ingredient removes the
recipe row and, through the schema's cascade, every ingredient row owned by
it, so reading its ingredients afterwards yields the empty list. -/
theorem delete_recipe_cascades (s : DbState) (rid : Int)
    (_hr : ∃ r ∈ s.recipes, r.id = rid)
    (_hi : ∃ i ∈ s.ingredients, i.recipe_id = some rid) :
    ∃ s', delete_recipe s rid = .ok s' ∧ (∀ r ∈ s'.recipes, r.id ≠ rid) ∧
      get_recipe_ingredients s' rid = [] := by
  refine ⟨_, rfl, ?_, ?_⟩
  · intro r hrr
    have := (List.mem_filter.mp hrr).2
    simpa using this
  · simp only [get_recipe_ingredients, List.map_eq_nil_iff]
    rw [List.filter_filter]
    apply List.filter_eq_nil_iff.mpr
    intro i hi'
    simp

/-- C2 witness: deleting recipe 1 of the demo store (which owns two
ingredients) leaves no recipe row with id 1 and no ingredients for id 1. -/
theorem delete_recipe_cascades_witness :
    (∃ r ∈ demoState.recipes, r.id = 1) ∧
      (∃ i ∈ demoState.ingredients, i.recipe_id = some 1) ∧
      ∃ s', delete_recipe demoState 1 = .ok s' ∧ (∀ r ∈ s'.recipes, r.id ≠ 1) ∧
        get_recipe_ingredients s' 1 = [] :=
  ⟨by decide, by decide, delete_recipe_cascades demoState 1 (by decide) (by decide)⟩

/-- A committed `add_ingredients` keeps the recipe table and only appends
ingredient rows whose `recipe_id` is the given id, which the foreign-key check
certified to reference a stored recipe. -/
lemma add_ingredients_ok_shape (rid : Int) :
    ∀ (names : List String) (s s' : DbState), add_ingredients s rid names = .ok s' →
      s'.recipes = s.recipes ∧
        ∀ i ∈ s'.ingredients, i ∈ s.ingredients ∨
          (i.recipe_id = some rid ∧ ∃ r ∈ s.recipes, r.id = rid) := by
  intro names
  induction names with
  | nil =>
    intro s s' h
    cases h
    exact ⟨rfl, fun i hi => Or.inl hi⟩
  | cons n rest ih =>
    intro s s' h
    by_cases hm : rid ∈ s.recipes.map RecipeRow.id
    · rw [add_ingredients, if_pos hm] at h
      obtain ⟨h1, h2⟩ := ih (insert_ingredient s n (some rid)) s' h
      have hrec : (insert_ingredient s n (some rid)).recipes = s.recipes := rfl
      refine ⟨h1.trans hrec, ?_⟩
      intro i hi
      obtain ⟨rr, hrr, hrid⟩ := List.mem_map.mp hm
      rcases h2 i hi with hin | ⟨ha, hb⟩
      · rcases List.mem_append.mp hin with h' | h'
        · exact Or.inl h'
        · have hieq := List.mem_singleton.mp h'
          subst hieq
          exact Or.inr ⟨rfl, rr, hrr, hrid⟩
      · exact Or.inr ⟨ha, hrec ▸ hb⟩
    · rw [add_ingredients, if_neg hm] at h
      cases h

/-- Referential integrity survives any rewrite of the ingredient table whose
rows all take their `recipe_id` from rows already present. -/
lemma refIntegrity_ingredient_change (s : DbState) (h : refIntegrity s)
    (l : List IngredientRow)
    (hl : ∀ i ∈ l, ∃ j ∈ s.ingredients, i.recipe_id = j.recipe_id) :
    refIntegrity ⟨s.recipes, l⟩ := by
  obtain ⟨h1, h2⟩ := h
  constructor
  · intro i hi
    obtain ⟨j, hj, he⟩ := hl i hi
    rw [he]
    exact h1 j hj
  · intro i hi rid hr
    obtain ⟨j, hj, he⟩ := hl i hi
    exact h2 j hj rid (he ▸ hr)

/-- C8 counterexample: a manual shopping-list entry does not store a row with
a null owning recipe: the shell passes the dummy recipe id 0, and on a fresh
store the insert fails the declared foreign key, storing nothing at all. -/
theorem add_manual_entry_does_not_store_null :
    add_manual_ingredients initState ["milk"] = .error .persistenceError := by rfl

/-- C8 amended: in every state reachable by the store's operations no
ingredient row carries a null `recipe_id` (the API only inserts concrete ids;
the manual path of the shell passes the dummy id 0 rather than null), and
every stored `recipe_id` references a recipe row present in the store, since
the foreign key checks inserts and deletions cascade. -/
theorem reachable_referential_integrity (s : DbState) (h : Reachable s) :
    refIntegrity s := by
  induction h with
  | init =>
    constructor <;> intro i hi <;> cases hi
  | step s op _hreach ih =>
    obtain ⟨ih1, ih2⟩ := ih
    cases op with
    | addRecipeOp r =>
      show refIntegrity ⟨s.recipes ++ [_], s.ingredients⟩
      constructor
      · intro i hi
        exact ih1 i hi
      · intro i hi rid hr
        obtain ⟨rr, hrr, hid⟩ := ih2 i hi rid hr
        exact ⟨rr, List.mem_append.mpr (Or.inl hrr), hid⟩
    | deleteRecipeOp rid0 =>
      show refIntegrity ⟨s.recipes.filter _, s.ingredients.filter _⟩
      constructor
      · intro i hi
        exact ih1 i (List.mem_filter.mp hi).1
      · intro i hi rid hr
        obtain ⟨hmem, hcond⟩ := List.mem_filter.mp hi
        obtain ⟨rr, hrr, hid⟩ := ih2 i hmem rid hr
        have hne : rid ≠ rid0 := by
          intro hcontra
          rw [hr, hcontra] at hcond
          simp at hcond
        refine ⟨rr, List.mem_filter.mpr ⟨hrr, ?_⟩, hid⟩
        simp [hid, hne]
    | addIngredientsOp rid names =>
      rcases hh : add_ingredients s rid names with e | s1
      · simp only [runOp, hh]
        exact ⟨ih1, ih2⟩
      · simp only [runOp, hh]
        obtain ⟨hrec, hing⟩ := add_ingredients_ok_shape rid names s s1 hh
        constructor
        · intro i hi
          rcases hing i hi with h' | ⟨ha, -⟩
          · exact ih1 i h'
          · rw [ha]
            simp
        · intro i hi rid' hr
          rcases hing i hi with h' | ⟨ha, hb⟩
          · obtain ⟨rr, hrr, hid⟩ := ih2 i h' rid' hr
            exact ⟨rr, hrec ▸ hrr, hid⟩
          · rw [ha] at hr
            obtain ⟨rr, hrr, hid⟩ := hb
            have : rid' = rid := by
              injection hr.symm
            exact ⟨rr, hrec ▸ hrr, this ▸ hid⟩
    | markIngredientOp n hv =>
      apply refIntegrity_ingredient_change s ⟨ih1, ih2⟩
      intro i hi
      obtain ⟨j, hj, hje⟩ := List.mem_map.mp hi
      refine ⟨j, hj, ?_⟩
      by_cases hn : j.name = n <;> simp [hn] at hje <;> rw [← hje]
    | markMultipleOp names hv =>
      apply refIntegrity_ingredient_change s ⟨ih1, ih2⟩
      intro i hi
      obtain ⟨j, hj, hje⟩ := List.mem_map.mp hi
      refine ⟨j, hj, ?_⟩
      by_cases hn : j.name ∈ names <;> simp [hn] at hje <;> rw [← hje]
    | markAndRemoveOp f names =>
      by_cases h1 : f.beginTx
      · simp only [runOp, mark_and_remove_ingredients, h1, if_true]
        exact ⟨ih1, ih2⟩
      by_cases h2 : f.updateStmt
      · simp only [runOp, mark_and_remove_ingredients, h1, h2, if_true, if_false,
          Bool.false_eq_true]
        exact ⟨ih1, ih2⟩
      by_cases h3 : f.deleteStmt
      · simp only [runOp, mark_and_remove_ingredients, h1, h2, h3, if_true, if_false,
          Bool.false_eq_true]
        exact ⟨ih1, ih2⟩
      by_cases h4 : f.commitStmt
      · simp only [runOp, mark_and_remove_ingredients, h1, h2, h3, h4, if_true, if_false,
          Bool.false_eq_true]
        exact ⟨ih1, ih2⟩
      simp only [runOp, mark_and_remove_ingredients, h1, h2, h3, h4, if_false,
        Bool.false_eq_true]
      apply refIntegrity_ingredient_change s ⟨ih1, ih2⟩
      intro i hi
      obtain ⟨hmem, -⟩ := List.mem_filter.mp hi
      obtain ⟨j, hj, hje⟩ := List.mem_map.mp hmem
      refine ⟨j, hj, ?_⟩
      by_cases hn : j.name ∈ names <;> simp [hn] at hje <;> rw [← hje]
    | getRecipesOp category =>
      exact ⟨ih1, ih2⟩
    | getRecipeIngredientsOp rid =>
      exact ⟨ih1, ih2⟩
    | getShoppingListOp =>
      exact ⟨ih1, ih2⟩

/-- C8 witness: the fresh store is reachable and satisfies referential
integrity. -/
theorem reachable_referential_integrity_witness : refIntegrity initState :=
  reachable_referential_integrity initState Reachable.init

end RecipeBook
